import Mathlib

/-!
Verification of the ECG analysis core of the Browser-ECG-Analyzer repository.

The numeric pipeline is the Python code embedded in `src/services/ecgWorker.ts`
(functions `preprocess_ecg`, `pan_tompkins_detector`, `detect_arrhythmia`,
`measure_qrs_width`, `calculate_qt_interval`, `calculate_hrv_metrics`,
`process_ecg_complete`).  Signal values are modelled as exact rationals `ℚ`
(the source computes in IEEE doubles; all decision structure of the code is
arithmetic over the reals, which the rational model represents exactly for the
executable parts).

Two systematic representation choices, used throughout:

* The scipy calls `signal.butter` + `signal.filtfilt` (the 0.5-40 Hz bandpass,
  the 60 Hz notch, and the detector's 5-15 Hz bandpass) have transcendental
  coefficients (they involve `tan` of multiples of π), so the exact filter maps
  are not representable by executable rational code.  Every filtfilt stage is
  therefore a *parameter* `List ℚ → List ℚ` of the embedded function, and
  theorems that need facts about it (linearity, length preservation) take them
  as hypotheses; everything downstream of the filters is embedded exactly.

* `np.std`/`np.sqrt` produce irrational values.  Wherever the source stores a
  standard deviation (or the Bazett-corrected QTc, which divides by a square
  root), the embedding stores its *square* (the variance), and wherever the
  source *compares* such a value, the embedding uses the equivalent squared
  comparison (both sides of the source comparison are nonnegative at the point
  of use; lemma `ampGate_iff_sqrt` below proves one such equivalence over ℝ).
-/

set_option maxRecDepth 8000

namespace ECG

/-! ## numpy-style helpers over ℚ -/

/-- Mean of a list of rationals — `np.mean`.  For `l = []` the source produces
nan (with a warning); the embedding returns the junk value `0`; every use in
the source is guarded to nonempty lists. -/
def qmean (l : List ℚ) : ℚ := l.sum / l.length

/-- Population variance — the square of `np.std(l)` (ddof = 0).  The source's
standard deviations are `Real.sqrt` of this. -/
def npVar (l : List ℚ) : ℚ := qmean (l.map (fun x => (x - qmean l) ^ 2))

/-- Sample variance — the square of `np.std(l, ddof=1)` (Bessel correction). -/
def npVarSample (l : List ℚ) : ℚ :=
  (l.map (fun x => (x - qmean l) ^ 2)).sum / ((l.length - 1 : ℕ) : ℚ)

/-- `np.diff` on an index list (peak indices are Python ints; differences are
taken in ℚ so that downstream arithmetic matches the source). -/
def diffsN (l : List ℕ) : List ℚ := List.zipWith (fun (a b : ℕ) => (b : ℚ) - (a : ℚ)) l l.tail

/-- `np.diff` on a value list. -/
def diffsQ (l : List ℚ) : List ℚ := List.zipWith (fun a b => b - a) l l.tail

/-- Python `l[-n:]` — the last `n` elements. -/
def lastN (n : ℕ) (l : List ℚ) : List ℚ := l.drop (l.length - n)

/-- Python slice `l[s:e]` (with the source's nonnegative indices). -/
def slice (l : List ℚ) (s e : ℕ) : List ℚ := (l.drop s).take (e - s)

/-- Maximum of a list (junk value 0 on `[]`, which the source never queries). -/
def listMax : List ℚ → ℚ
  | [] => 0
  | [x] => x
  | x :: y :: t => max x (listMax (y :: t))

/-- Minimum of a list (junk value 0 on `[]`). -/
def listMin : List ℚ → ℚ
  | [] => 0
  | [x] => x
  | x :: y :: t => min x (listMin (y :: t))

/-- `np.argmax`: index of the first occurrence of the maximum. -/
def argmaxFirst : List ℚ → ℕ
  | [] => 0
  | [_] => 0
  | x :: y :: t => if x < listMax (y :: t) then argmaxFirst (y :: t) + 1 else 0

/-- `np.argmin`: index of the first occurrence of the minimum. -/
def argminFirst : List ℚ → ℕ
  | [] => 0
  | [_] => 0
  | x :: y :: t => if listMin (y :: t) < x then argminFirst (y :: t) + 1 else 0

/-- Python `int(q)` for the nonnegative rationals the source applies it to
(truncation towards zero = floor there). -/
def ratTrunc (q : ℚ) : ℕ := (⌊q⌋).toNat

/-- `np.percentile(l, 98)` with numpy's default linear interpolation:
sort ascending, position `0.98·(n−1)`, interpolate between the two bracketing
order statistics.  On `[]` the source raises; the embedding returns 0. -/
def percentile98 (l : List ℚ) : ℚ :=
  let s := List.insertionSort (· ≤ ·) l
  let n := s.length
  if n = 0 then 0
  else
    let pos : ℚ := (49 / 50) * ((n : ℚ) - 1)
    let lo := (⌊pos⌋).toNat
    let frac : ℚ := pos - (lo : ℚ)
    s.getD lo 0 + frac * (s.getD (lo + 1) (s.getD lo 0) - s.getD lo 0)

/-- Clamp an integer index into `[0, n−1]` — `mode='nearest'` boundary
handling of `scipy.ndimage.uniform_filter1d`. -/
def clampIdx (n : ℕ) (j : ℤ) : ℕ := (min ((n : ℤ) - 1) (max 0 j)).toNat

/-- `scipy.ndimage.uniform_filter1d(x, size, mode='nearest')`: centered moving
average; the window for output `i` covers input indices `i + k − size/2` for
`k < size` (scipy places the origin of an even-length window at `size/2`),
out-of-range indices clamped to the nearest edge. -/
def uniformFilter1dNearest (size : ℕ) (x : List ℚ) : List ℚ :=
  (List.range x.length).map (fun i =>
    ((List.range size).map (fun k =>
      x.getD (clampIdx x.length ((i : ℤ) + (k : ℤ) - (size / 2 : ℕ))) 0)).sum / size)

/-- `np.convolve(a, np.ones(w)/w, mode='same')`: the middle `max(len a, w)`
entries of the full convolution, whose offset is `(min(len a, w) − 1)/2`. -/
def convolveMeanSame (w : ℕ) (a : List ℚ) : List ℚ :=
  (List.range (max a.length w)).map (fun k =>
    ((List.range w).map (fun j =>
      if j ≤ k + (min a.length w - 1) / 2 then a.getD (k + (min a.length w - 1) / 2 - j) 0
      else 0)).sum / w)

/-! ## Preprocessor (`preprocess_ecg`, ecgWorker.ts lines 115-158)

The two filtfilt stages (4th-order Butterworth bandpass 0.5-40 Hz and the
60 Hz notch with Q = 30) are parameters, per the note at the top of the file.
No validation is performed by the source function: short inputs or invalid
normalized cutoffs make the scipy calls themselves raise. -/

/-- Data determining `filter_metrics`: the source exposes
`snr_db = 10·log10(signal_power/noise_power)` (or 100 when `noise_power = 0`),
`confidence_score = clamp((snr_db − 5)·5, 0, 100)` and
`signal_std = √signal_power`; all three are functions of these two rationals,
and no claim constrains their values, so the powers themselves are stored. -/
structure FilterMetrics where
  signal_power : ℚ
  noise_power : ℚ
deriving DecidableEq

/-- `preprocess_ecg(raw_signal, fs)`: bandpass, notch, baseline-wander removal
by subtracting a centered `int(0.2·fs)`-sample moving average, plus the SNR
power bookkeeping. -/
def preprocess_ecg (bandpass05to40 notch60 : List ℚ → List ℚ) (raw : List ℚ) (fs : ℚ) :
    List ℚ × FilterMetrics :=
  let filtered := bandpass05to40 raw
  let notched := notch60 filtered
  let windowSamples := ratTrunc (fs / 5)
  let baseline := uniformFilter1dNearest windowSamples notched
  let cleaned := List.zipWith (fun a b => a - b) notched baseline
  (cleaned,
   { signal_power := npVar cleaned,
     noise_power := npVar (List.zipWith (fun a b => a - b) raw cleaned) })

/-! ## QRS detector (`pan_tompkins_detector`, ecgWorker.ts lines 161-256) -/

/-- Five-point derivative: `d[i] = (−x[i−2] − 2x[i−1] + 2x[i+1] + x[i+2]) / (8/fs)`
for `2 ≤ i ≤ len−3`, zero at the two boundary samples on each side
(`np.zeros_like` initialization). -/
def fivePointDerivative (fs : ℚ) (x : List ℚ) : List ℚ :=
  (List.range x.length).map (fun i =>
    if 2 ≤ i ∧ i + 2 < x.length then
      (-(x.getD (i - 2) 0) - 2 * x.getD (i - 1) 0 + 2 * x.getD (i + 1) 0 + x.getD (i + 2) 0)
        * fs / 8
    else 0)

/-- State of the adaptive-thresholding while-loop: scan position `i`, accepted
peak indices `rPeaks` (source `r_peaks`, appended at the right), the retained
integrated-signal amplitudes `signalPeaks`/`noisePeaks`, and the adaptive
`threshold`. -/
structure PTState where
  i : ℕ
  rPeaks : List ℕ
  signalPeaks : List ℚ
  noisePeaks : List ℚ
  threshold : ℚ
deriving DecidableEq

/-- Refractory test `len(r_peaks) == 0 or (i - r_peaks[-1]) > refractory_samples`. -/
def refrOk (refr : ℕ) (rPeaks : List ℕ) (i : ℕ) : Bool :=
  match rPeaks.getLast? with
  | none => true
  | some last => decide (last + refr < i)

/-- Amplitude gate `peak_val > np.std(signal_array) * 0.5`.  `np.std` is the
square root of `npVar`; since the right-hand side is nonnegative, the source
comparison is equivalent to `0 < peak_val ∧ npVar < (2·peak_val)²`
(`ampGate_iff_sqrt` below proves the equivalence over ℝ). -/
def ampGate (sig : List ℚ) (pv : ℚ) : Bool :=
  decide (0 < pv ∧ npVar sig < 4 * pv ^ 2)

/-- The relocation search window `signal_array[max(0, i−w) : min(len, i+w)]`
(`st.i - w` in ℕ is `max(0, i − search_window)`). -/
def searchSlice (sig : List ℚ) (w i : ℕ) : List ℚ :=
  slice sig (i - w) (min sig.length (i + w))

/-- `actual_peak_idx = start_idx + np.argmax(local_signal)`. -/
def relocatedPeak (sig : List ℚ) (w i : ℕ) : ℕ :=
  (i - w) + argmaxFirst (searchSlice sig w i)

/-- One iteration of the source's while-loop over the integrated signal
(`integ`); `sig` is the detector's input signal (`signal_array`), `refr` the
refractory period, `w` the `int(0.08·fs)` relocation half-window. -/
def ptStep (integ sig : List ℚ) (refr w : ℕ) (st : PTState) : PTState :=
  let i := st.i
  let v := integ.getD i 0
  if integ.getD (i - 1) 0 < v ∧ integ.getD (i + 1) 0 < v then
    if st.threshold < v then
      if refrOk refr st.rPeaks i then
        let localSig := searchSlice sig w i
        if localSig ≠ [] then
          let actual := relocatedPeak sig w i
          let pv := sig.getD actual 0
          if ampGate sig pv then
            let sp := st.signalPeaks ++ [v]
            let avgSignal := qmean (lastN 8 sp)
            let avgNoise := if st.noisePeaks = [] then 0 else qmean (lastN 8 st.noisePeaks)
            { i := i + refr,
              rPeaks := st.rPeaks ++ [actual],
              signalPeaks := sp,
              noisePeaks := st.noisePeaks,
              threshold := avgNoise + (2 / 5) * (avgSignal - avgNoise) }
          else { st with i := i + 1 }
        else { st with i := i + 1 }
      else { st with i := i + 1 }
    else { st with i := i + 1, noisePeaks := st.noisePeaks ++ [v] }
  else { st with i := i + 1 }

/-- The while-loop `while i < len(integrated) - 1`, fuel-indexed.  Every
iteration strictly increases `i` (`ptStep_i_lt` below), so any fuel of at
least `len(integrated)` computes the loop's true fixpoint
(`ptLoop_fuel_stable` below); the detector runs it with exactly that fuel. -/
def ptLoop (integ sig : List ℚ) (refr w : ℕ) : ℕ → PTState → PTState
  | 0, st => st
  | fuel + 1, st =>
    if st.i + 1 < integ.length then
      ptLoop integ sig refr w fuel (ptStep integ sig refr w st)
    else st

/-- `detection_metrics` of the detector.  In the `len(r_peaks) >= 2` branch the
source also stores `avg_rr_interval_s` and `rr_std_s`; the one-or-zero-peak
branch omits those dictionary keys, modelled by `none`.  `rr_var_s` is the
square of the source's `rr_std_s`. -/
structure DetectionMetrics where
  num_peaks : ℕ
  avg_heart_rate_bpm : ℚ
  avg_rr_interval_s : Option ℚ
  rr_var_s : Option ℚ
  final_threshold : ℚ
deriving DecidableEq

/-- Heart-rate metrics from the accepted peaks (ecgWorker.ts lines 241-254). -/
def detectionMetricsOf (peaks : List ℕ) (fs thr : ℚ) : DetectionMetrics :=
  if 2 ≤ peaks.length then
    let rr := (diffsN peaks).map (fun d => d / fs)
    let avgRR := qmean rr
    { num_peaks := peaks.length,
      avg_heart_rate_bpm := if 0 < avgRR then 60 / avgRR else 0,
      avg_rr_interval_s := some avgRR,
      rr_var_s := some (npVar rr),
      final_threshold := thr }
  else
    { num_peaks := peaks.length, avg_heart_rate_bpm := 0,
      avg_rr_interval_s := none, rr_var_s := none, final_threshold := thr }

/-- `pan_tompkins_detector(ecg_signal, fs)`: QRS bandpass (parameter), five-point
derivative, squaring, `int(0.120·fs)`-sample moving-window integration,
98th-percentile-seeded adaptive thresholding with refractory period
`int(0.2·fs)` and relocation half-window `int(0.08·fs)`. -/
def pan_tompkins_detector (bandpass5to15 : List ℚ → List ℚ) (ecg : List ℚ) (fs : ℚ) :
    List ℕ × DetectionMetrics :=
  let filtered := bandpass5to15 ecg
  let derivative := fivePointDerivative fs filtered
  let squared := derivative.map (fun d => d ^ 2)
  let window := ratTrunc ((3 / 25) * fs)
  let integrated := convolveMeanSame window squared
  let threshold := (3 / 5) * percentile98 integrated
  let refr := ratTrunc (fs / 5)
  let w := ratTrunc ((2 / 25) * fs)
  let final := ptLoop integrated ecg refr w integrated.length
    { i := 1, rPeaks := [], signalPeaks := [], noisePeaks := [], threshold := threshold }
  (final.rPeaks, detectionMetricsOf final.rPeaks fs final.threshold)

/-! ## Rhythm classifier (`detect_arrhythmia`, ecgWorker.ts lines 263-302) -/

/-- The source's comparison `cv ≥ c` where `cv = std_rr/mean_rr if mean_rr > 0
else 0` and `std_rr = √varR`: for `mean_rr > 0` and a positive constant `c`
this is `varR ≥ c²·mean_rr²` (both sides of `std_rr ≥ c·mean_rr` are then
nonnegative); for `mean_rr ≤ 0` the source's `cv` is `0`, whence `c ≤ 0`. -/
def cvGE (varR meanR c : ℚ) : Prop :=
  if 0 < meanR then c ^ 2 * meanR ^ 2 ≤ varR else c ≤ 0

instance (varR meanR c : ℚ) : Decidable (cvGE varR meanR c) := by
  unfold cvGE; infer_instance

/-- Python `"Normal" in rhythm_status` (substring containment):
`splitOn` yields more than one chunk exactly when the separator occurs. -/
def containsNormal (s : String) : Bool := (s.splitOn "Normal").length != 1

/-- `arrhythmia_metrics`.  The `len(r_peaks) < 3` branch only stores the keys
`cv` and `mean_hr` (both 0); the missing keys are `none`.  `cv_sq` is the
square of the source's `cv`, and `rr_var_ms` the square of its `std_rr_ms`. -/
structure ArrhythmiaMetrics where
  cv_sq : ℚ
  mean_hr : ℚ
  mean_rr_ms : Option ℚ
  rr_var_ms : Option ℚ
deriving DecidableEq

/-- `detect_arrhythmia(r_peaks, fs)`: hierarchical rhythm label.  The source
computes the rate tier first and then overrides it by the irregularity checks;
`60.0/rr_intervals` is elementwise.  (For `rr` entries equal to 0 — impossible
for detector output, which is strictly increasing — the source would produce
inf where ℚ yields 0; theorems about this function therefore assume strictly
increasing peaks.) -/
def detect_arrhythmia (rPeaks : List ℕ) (fs : ℚ) : String × ArrhythmiaMetrics :=
  if rPeaks.length < 3 then
    ("Insufficient data", { cv_sq := 0, mean_hr := 0, mean_rr_ms := none, rr_var_ms := none })
  else
    let rr := (diffsN rPeaks).map (fun d => d / fs)
    let meanRR := qmean rr
    let varRR := npVar rr
    let cvSq := if 0 < meanRR then varRR / meanRR ^ 2 else 0
    let meanHR := qmean (rr.map (fun x => 60 / x))
    let tier :=
      if meanHR < 60 then "Bradycardia"
      else if 100 < meanHR then "Tachycardia"
      else "Normal Sinus Rhythm"
    let label :=
      if cvGE varRR meanRR (3 / 20) then "Flagged: Irregular Rhythm"
      else if cvGE varRR meanRR (2 / 25) ∧ containsNormal tier then "Borderline: Mild Irregularity"
      else tier
    (label,
     { cv_sq := cvSq, mean_hr := meanHR,
       mean_rr_ms := some (meanRR * 1000), rr_var_ms := some (npVar (rr.map (· * 1000))) })

/-- The rhythm label exactly as claim C5 words it: the `cv ≥ 0.15` check first,
then the rate tier, then the borderline override of a "Normal Sinus Rhythm"
tier when `cv ≥ 0.08`.  Compared against `detect_arrhythmia` in theorem C5. -/
def classify_rhythm_spec (rPeaks : List ℕ) (fs : ℚ) : String :=
  if rPeaks.length < 3 then "Insufficient data"
  else
    let rr := (diffsN rPeaks).map (fun d => d / fs)
    let meanRR := qmean rr
    let varRR := npVar rr
    let meanHR := qmean (rr.map (fun x => 60 / x))
    if cvGE varRR meanRR (3 / 20) then "Flagged: Irregular Rhythm"
    else
      let tier :=
        if meanHR < 60 then "Bradycardia"
        else if 100 < meanHR then "Tachycardia"
        else "Normal Sinus Rhythm"
      if tier = "Normal Sinus Rhythm" ∧ cvGE varRR meanRR (2 / 25) then
        "Borderline: Mild Irregularity"
      else tier

/-! ## QRS width (`measure_qrs_width`, ecgWorker.ts lines 309-377) -/

/-- Q-onset scan: `for i in range(r_local, 0, -1)`, acting only when
`i < r_local - 2` (Python ints, i.e. `i + 2 < rL`), taking the first `i` with
backward slope `|seg[i] − seg[i−1]| < 0.005` and otherwise 0.  (The source's
`for ... else` clause re-assigns `q_onset = 0` only when the loop finishes
without `break`, i.e. exactly when no index matched.) -/
def qOnsetSearch (seg : List ℚ) (rL : ℕ) : ℕ :=
  (((List.range rL).map (fun k => rL - k)).find? (fun i =>
    decide (i + 2 < rL) && decide (|seg.getD i 0 - seg.getD (i - 1) 0| < 1 / 200))).getD 0

/-- S-offset scan: from the S trough forward, `for i in range(s_global, len(seg)-1)`,
first index with forward slope `< 0.005`; default `len(seg) − 1`. -/
def sOffsetSearch (seg : List ℚ) (sGlobal : ℕ) : ℕ :=
  (((List.range (seg.length - 1 - sGlobal)).map (fun k => sGlobal + k)).find? (fun i =>
    decide (|seg.getD (i + 1) 0 - seg.getD i 0| < 1 / 200))).getD (seg.length - 1)

/-- The per-peak measurement loop of `measure_qrs_width`: for each peak the
`[r − int(0.05·fs), r + int(0.08·fs))` segment (truncated at the boundaries,
skipped if shorter than 5), Q-onset and S-offset scans, and retention of the
resulting width only when `40 < width_ms < 200`.  (For a peak at or beyond the
signal's end with a nonempty segment — impossible for detector output — the
source's `np.argmin` of the empty `segment[r_local:]` would raise; the total
embedding returns the junk index 0 there.) -/
def qrsWidths (sig : List ℚ) (rPeaks : List ℕ) (fs : ℚ) : List ℚ :=
  rPeaks.filterMap (fun r =>
    let pre := ratTrunc (fs / 20)
    let post := ratTrunc ((2 / 25) * fs)
    let start := r - pre
    let stop := min sig.length (r + post)
    let seg := slice sig start stop
    if seg.length < 5 then none
    else
      let rL := r - start
      let qOnset := qOnsetSearch seg rL
      let sGlobal := rL + argminFirst (seg.drop rL)
      let sOffset := sOffsetSearch seg sGlobal
      let width := ((sOffset : ℚ) - (qOnset : ℚ)) * 1000 / fs
      if 40 < width ∧ width < 200 then some width else none)

/-- `qrs_metrics`; `std_qrs_sq` is the square of the source's `std_qrs_ms`. -/
structure QrsMetrics where
  mean_qrs_ms : ℚ
  std_qrs_sq : ℚ
  qrs_interpretation : String
deriving DecidableEq

/-- `measure_qrs_width(ecg_signal, r_peaks, fs)` (both degenerate branches
return literal dictionaries in the source; `std_qrs_sq = 0` there since the
source stores the literal 0). -/
def measure_qrs_width (sig : List ℚ) (rPeaks : List ℕ) (fs : ℚ) : QrsMetrics :=
  if rPeaks.length < 2 then
    { mean_qrs_ms := 0, std_qrs_sq := 0, qrs_interpretation := "Insufficient data" }
  else
    let widths := qrsWidths sig rPeaks fs
    if widths = [] then
      { mean_qrs_ms := 80, std_qrs_sq := 0, qrs_interpretation := "Could not detect" }
    else
      let meanQrs := qmean widths
      { mean_qrs_ms := meanQrs,
        std_qrs_sq := npVar widths,
        qrs_interpretation :=
          if 120 ≤ meanQrs then "Wide QRS (BBB/Ventricular)"
          else if meanQrs ≤ 60 then "Narrow (Normal)"
          else "Normal" }

/-! ## QT / QTc (`calculate_qt_interval`, ecgWorker.ts lines 380-448) -/

/-- The per-pair loop of `calculate_qt_interval`: for each consecutive peak
pair, locate the T peak in `[r + int(0.04·fs), r + int(0.45·fs))`, find the
steepest descent of the following `int(0.1·fs)` samples, extrapolate that
tangent to the baseline (`t_end` is fractional), and retain
`qt_ms = (t_end − (r − int(0.03·fs)))·1000/fs` when `200 < qt_ms < 600`.
`q_start` can be negative in the source (Python int); it is computed in ℚ. -/
def qtList (sig : List ℚ) (rPeaks : List ℕ) (fs : ℚ) : List ℚ :=
  (List.zipWith (fun (r rNext : ℕ) => (r, rNext)) rPeaks rPeaks.tail).filterMap (fun p =>
    let r := p.1
    let tStart := r + ratTrunc (fs / 25)
    let tEndWindow := r + ratTrunc ((9 / 20) * fs)
    if sig.length ≤ tEndWindow then none
    else
      let tWindow := slice sig tStart tEndWindow
      if tWindow = [] then none
      else
        let tPeak := tStart + argmaxFirst tWindow
        let slopeSearch := slice sig tPeak (tPeak + ratTrunc (fs / 10))
        if slopeSearch.length < 2 then none
        else
          let slopes := diffsQ slopeSearch
          let minSlopeIdx := argminFirst slopes
          let maxSlope := slopes.getD minSlopeIdx 0
          if maxSlope = 0 then none
          else
            let slopePoint := tPeak + minSlopeIdx
            let tEnd : ℚ := (slopePoint : ℚ) - sig.getD slopePoint 0 / maxSlope
            let qStart : ℚ := (r : ℚ) - (ratTrunc ((3 / 100) * fs) : ℚ)
            let qtMs := (tEnd - qStart) / fs * 1000
            if 200 < qtMs ∧ qtMs < 600 then some qtMs else none)

/-- `qt_metrics`; `qtc_bazett_sq` is the square of the source's
`mean_qtc_bazett_ms = mean_qt/√mean_rr` (which is nonnegative, `mean_qt` being
0 or a mean of values in (200, 600)). -/
structure QtMetrics where
  mean_qt_ms : ℚ
  qtc_bazett_sq : ℚ
  qt_risk_flag : Bool
  qt_interpretation : String
deriving DecidableEq

/-- The source's comparison `qtc < c` for a positive constant `c`, where
`qtc = mean_qt/√mean_rr if mean_rr > 0 else 0`: squared-form equivalent. -/
def qtcLT (meanQt meanRR c : ℚ) : Prop :=
  if 0 < meanRR then meanQt ≤ 0 ∨ meanQt ^ 2 < c ^ 2 * meanRR else 0 < c

instance (meanQt meanRR c : ℚ) : Decidable (qtcLT meanQt meanRR c) := by
  unfold qtcLT; infer_instance

/-- `calculate_qt_interval(ecg_signal, r_peaks, fs)` with Bazett correction.
`qt_risk_flag = qtc > 470` is `0 < mean_rr ∧ 0 < mean_qt ∧ 470²·mean_rr < mean_qt²`
in squared form. -/
def calculate_qt_interval (sig : List ℚ) (rPeaks : List ℕ) (fs : ℚ) : QtMetrics :=
  if rPeaks.length < 3 then
    { mean_qt_ms := 0, qtc_bazett_sq := 0, qt_risk_flag := false, qt_interpretation := "N/A" }
  else
    let qts := qtList sig rPeaks fs
    let meanQt := if qts = [] then 0 else qmean qts
    let rr := (diffsN rPeaks).map (fun d => d / fs)
    let meanRR := if rr = [] then 1 else qmean rr
    { mean_qt_ms := meanQt,
      qtc_bazett_sq := if 0 < meanRR then meanQt ^ 2 / meanRR else 0,
      qt_risk_flag := decide (0 < meanRR ∧ 0 < meanQt ∧ 470 ^ 2 * meanRR < meanQt ^ 2),
      qt_interpretation :=
        if qtcLT meanQt meanRR 450 then "Normal"
        else if qtcLT meanQt meanRR 500 then "Prolonged QTc"
        else "High Risk (Long QT)" }

/-! ## HRV (`calculate_hrv_metrics`, ecgWorker.ts lines 451-511) -/

/-- `hrv_metrics`.  Squared representation for `sdnn_ms` (ddof = 1), `rmssd_ms`
and `sdsd_ms`; dictionary keys missing from a source branch are `none`
(the `< 3`-peaks branch stores `sdnn, rmssd, pnn50, mean_nn, cv`; the noisy
branch only `sdnn, rmssd, pnn50`). -/
structure HrvMetrics where
  sdnn_sq : ℚ
  rmssd_sq : ℚ
  pnn50_percent : ℚ
  sdsd_sq : Option ℚ
  pnn20_percent : Option ℚ
  mean_nn_ms : Option ℚ
  cv_percent_sq : Option ℚ
  nn_count : Option ℕ
  ectopic_removed : Option ℕ
  hrv_interpretation : String
deriving DecidableEq

/-- `calculate_hrv_metrics(r_peaks, fs)`: RR intervals in ms, physiological
300-1500 ms ectopic filter, then SDNN (ddof = 1), RMSSD, SDSD, pNN50 and the
interpretation tiers (`sdnn < 20`, `sdnn < 100` become squared comparisons). -/
def calculate_hrv_metrics (rPeaks : List ℕ) (fs : ℚ) : HrvMetrics :=
  if rPeaks.length < 3 then
    { sdnn_sq := 0, rmssd_sq := 0, pnn50_percent := 0, sdsd_sq := none,
      pnn20_percent := none, mean_nn_ms := some 0, cv_percent_sq := some 0,
      nn_count := none, ectopic_removed := none,
      hrv_interpretation := "Insufficient data" }
  else
    let rrMs := (diffsN rPeaks).map (fun d => d / fs * 1000)
    let nn := rrMs.filter (fun x => decide (300 < x) && decide (x < 1500))
    if nn.length < 2 then
      { sdnn_sq := 0, rmssd_sq := 0, pnn50_percent := 0, sdsd_sq := none,
        pnn20_percent := none, mean_nn_ms := none, cv_percent_sq := none,
        nn_count := none, ectopic_removed := none,
        hrv_interpretation := "High noise level - unstable RR" }
    else
      let sdnnSq := npVarSample nn
      let diffNN := diffsQ nn
      let rmssdSq := qmean (diffNN.map (fun d => d ^ 2))
      let nn50 := (diffNN.filter (fun d => decide (50 < |d|))).length
      let pnn50 : ℚ := if diffNN.length ≠ 0 then ((nn50 : ℚ) / diffNN.length) * 100 else 0
      let meanNN := qmean nn
      { sdnn_sq := sdnnSq,
        rmssd_sq := rmssdSq,
        pnn50_percent := pnn50,
        sdsd_sq := some (if diffNN.length ≠ 0 then npVar diffNN else 0),
        pnn20_percent := some 0,
        mean_nn_ms := some meanNN,
        cv_percent_sq := some (100 ^ 2 * sdnnSq / meanNN ^ 2),
        nn_count := some nn.length,
        ectopic_removed := some (rrMs.length - nn.length),
        hrv_interpretation :=
          if sdnnSq < 400 then "Low HRV (Reduced variability)"
          else if sdnnSq < 10000 then "Normal range for short-term recording"
          else "High Variability" }

/-! ## Clinical interpretation and complete pipeline
(`process_ecg_complete`, ecgWorker.ts lines 518-600) -/

/-- Lines 547-561: the clinical-interpretation step, a pure function of the
stage outputs.  `sdnn_ms > 0 and sdnn_ms < 50` is `0 < sdnn² < 50²` in squared
form (SDNN being nonnegative). -/
def clinical_interpretation (rhythmStatus : String) (qrs : QrsMetrics)
    (det : DetectionMetrics) (qt : QtMetrics) (hrv : HrvMetrics) : String × List String :=
  let wideStep :=
    if 120 < qrs.mean_qrs_ms then
      if 100 < det.avg_heart_rate_bpm then
        ("Wide-Complex Tachycardia - URGENT EVALUATION",
         ["Wide QRS with tachycardia requires immediate assessment"])
      else (rhythmStatus, [qrs.qrs_interpretation])
    else (rhythmStatus, ([] : List String))
  let warnings1 := if qt.qt_risk_flag then wideStep.2 ++ [qt.qt_interpretation] else wideStep.2
  let warnings2 :=
    if 0 < hrv.sdnn_sq ∧ hrv.sdnn_sq < 2500 then
      warnings1 ++ ["Low HRV detected - consider cardiac risk assessment"]
    else warnings1
  (wideStep.1, warnings2)

/-- The flat result dictionary of `process_ecg_complete` (the `ui_metrics`
block only repackages fields already present here and in the metric bundles:
`bpm`, `rhythmStatus`, `confidence`, `sdnn`, `rmssd`, `qtcBazett`, `qrsWidth`,
`pnn50`, `clinicalWarnings` are verbatim copies). -/
structure AnalysisResult where
  cleaned_signal : List ℚ
  r_peak_indices : List ℕ
  filter_metrics : FilterMetrics
  detection_metrics : DetectionMetrics
  arrhythmia_metrics : ArrhythmiaMetrics
  qrs_metrics : QrsMetrics
  qt_metrics : QtMetrics
  hrv_metrics : HrvMetrics
  rhythm_status : String
  clinical_warnings : List String
  sample_rate : ℚ
  num_samples : ℕ
deriving DecidableEq

/-- `process_ecg_complete(raw_voltages, sample_rate, verbose)`: the five
pipeline stages followed by the clinical-interpretation step.  `verbose` only
controls printing in the source and has no effect on the returned values. -/
def process_ecg_complete (bandpass05to40 notch60 bandpass5to15 : List ℚ → List ℚ)
    (raw : List ℚ) (sampleRate : ℚ) (verbose : Bool) : AnalysisResult :=
  let pre := preprocess_ecg bandpass05to40 notch60 raw sampleRate
  let cleaned := pre.1
  let det := pan_tompkins_detector bandpass5to15 cleaned sampleRate
  let rPeaks := det.1
  let rhythm := detect_arrhythmia rPeaks sampleRate
  let qrs := measure_qrs_width cleaned rPeaks sampleRate
  let qt := calculate_qt_interval cleaned rPeaks sampleRate
  let hrv := calculate_hrv_metrics rPeaks sampleRate
  let clinical := clinical_interpretation rhythm.1 qrs det.2 qt hrv
  let _ := verbose
  { cleaned_signal := cleaned,
    r_peak_indices := rPeaks,
    filter_metrics := pre.2,
    detection_metrics := det.2,
    arrhythmia_metrics := rhythm.2,
    qrs_metrics := qrs,
    qt_metrics := qt,
    hrv_metrics := hrv,
    rhythm_status := clinical.1,
    clinical_warnings := clinical.2,
    sample_rate := sampleRate,
    num_samples := raw.length }

/-- Scaling action on the loop state: integrated-signal amplitudes and the
threshold scale, scan position and peak indices do not.  Used to state the
scale-invariance lemmas for C7. -/
def scaleState (c : ℚ) (st : PTState) : PTState :=
  { i := st.i, rPeaks := st.rPeaks,
    signalPeaks := st.signalPeaks.map (fun x => c * x),
    noisePeaks := st.noisePeaks.map (fun x => c * x),
    threshold := c * st.threshold }

/-! ## Concrete instances used by witnesses

At `fs = 25` the detector's derived constants are integration window
`int(0.120·25) = 3`, refractory period `int(0.2·25) = 5` and relocation
half-window `int(0.08·25) = 2`. -/

/-- A value for the detector's front-end filter slot output: two impulses
(value 8) at indices 10 and 17.  Squared five-point differentiation and
3-sample integration turn each impulse into a strict local maximum of the
integrated signal at the impulse position, above the `0.6·percentile(·, 98)`
threshold, so the thresholding loop accepts two candidates. -/
def egBandpassed : List ℚ := (List.range 30).map (fun i => if i = 10 ∨ i = 17 then 8 else 0)

/-- A detector input signal whose maxima sit at indices 11 and 15, inside the
relocation windows of the two accepted candidates, so a detector run over
`egBandpassed` returns two peaks. -/
def egEcg : List ℚ := (List.range 30).map (fun i => if i = 11 ∨ i = 15 then 10 else 0)

/-- An instantiation of the front-end filter slot producing `egBandpassed`,
used by witnesses to exercise the universally quantified detector theorems on
a concrete run with a nonempty peak list.  (The source's actual front end is
scipy's Butterworth filtfilt, whose transcendental coefficients have no exact
rational embedding; this constant slot value is not that filter.) -/
def egFrontEnd : List ℚ → List ℚ := fun _ => egBandpassed

/-! # Theorems -/

/-! ## Generic facts about the helpers -/

theorem qmean_nonneg_of (l : List ℚ) (h : ∀ x ∈ l, 0 ≤ x) : 0 ≤ qmean l := by
  unfold qmean
  exact div_nonneg (List.sum_nonneg h) (Nat.cast_nonneg _)

theorem npVar_nonneg (l : List ℚ) : 0 ≤ npVar l := by
  unfold npVar
  exact qmean_nonneg_of _ (by
    intro x hx
    obtain ⟨y, _, rfl⟩ := List.mem_map.mp hx
    positivity)

/-- Bridge justifying the squared form of the amplitude gate: over ℝ it is the
source's `peak_val > np.std(signal_array) * 0.5`. -/
theorem ampGate_iff_sqrt (sig : List ℚ) (pv : ℚ) :
    ampGate sig pv = true ↔ Real.sqrt (npVar sig) * (1 / 2) < (pv : ℝ) := by
  unfold ampGate
  rw [decide_eq_true_iff]
  have hv : (0 : ℝ) ≤ ((npVar sig : ℚ) : ℝ) := by exact_mod_cast npVar_nonneg sig
  constructor
  · rintro ⟨hpv, hlt⟩
    have hpvR : (0 : ℝ) < (pv : ℝ) := by exact_mod_cast hpv
    have h2p : (0 : ℝ) < 2 * (pv : ℝ) := by linarith
    have hltR : ((npVar sig : ℚ) : ℝ) < (2 * (pv : ℝ)) ^ 2 := by
      have h4 : ((npVar sig : ℚ) : ℝ) < 4 * (pv : ℝ) ^ 2 := by exact_mod_cast hlt
      nlinarith
    have := (Real.sqrt_lt' h2p).mpr hltR
    linarith
  · intro h
    have hpvR : (0 : ℝ) < (pv : ℝ) :=
      lt_of_le_of_lt (by positivity) h
    have h2p : (0 : ℝ) < 2 * (pv : ℝ) := by linarith
    have hlt2 : Real.sqrt ((npVar sig : ℚ) : ℝ) < 2 * (pv : ℝ) := by linarith
    have hsq := (Real.sqrt_lt' h2p).mp hlt2
    refine ⟨by exact_mod_cast hpvR, ?_⟩
    have h4 : ((npVar sig : ℚ) : ℝ) < 4 * (pv : ℝ) ^ 2 := by nlinarith
    exact_mod_cast h4

/-! ## C9 -/

/-- C9: with fewer than 3 peaks (in particular with exactly 2, where one
consecutive pair exists), `calculate_qt_interval` returns
`mean_qt_ms = 0`, `mean_qtc_bazett_ms = 0` (stored squared), no risk flag, and
interpretation "N/A". -/
theorem C9_qt_insufficient (sig : List ℚ) (rPeaks : List ℕ) (fs : ℚ)
    (h : rPeaks.length < 3) :
    calculate_qt_interval sig rPeaks fs =
      { mean_qt_ms := 0, qtc_bazett_sq := 0, qt_risk_flag := false,
        qt_interpretation := "N/A" } := by
  unfold calculate_qt_interval
  rw [if_pos h]

theorem C9_qt_insufficient_witness :
    ((2 : ℕ) < 3) ∧
      calculate_qt_interval [1, 2, 3, 4] [0, 2] 250 =
        { mean_qt_ms := 0, qtc_bazett_sq := 0, qt_risk_flag := false,
          qt_interpretation := "N/A" } :=
  ⟨by decide, C9_qt_insufficient [1, 2, 3, 4] [0, 2] 250 (by decide)⟩

/-! ## C3 -/

/-- C3 counterexample: with an empty peak list (fewer than two elements, and
trivially no width retained), the source returns the
`{'mean_qrs_ms': 0, ..., 'Insufficient data'}` literal of its
`len(r_peaks) < 2` guard — not `{80, 0, "Could not detect"}` as the claim
asserts for that case. -/
theorem C3_counterexample :
    qrsWidths [] [] 250 = [] ∧
      measure_qrs_width [] [] 250 =
        { mean_qrs_ms := 0, std_qrs_sq := 0, qrs_interpretation := "Insufficient data" } ∧
      measure_qrs_width [] [] 250 ≠
        { mean_qrs_ms := 80, std_qrs_sq := 0, qrs_interpretation := "Could not detect" } := by
  refine ⟨rfl, rfl, ?_⟩
  with_unfolding_all decide

/-- C3 (amended): when the per-peak loop retains no width in (40, 200) ms *and*
`r_peaks` has at least two elements, the function returns
`{80, 0, "Could not detect"}`; with fewer than two elements it returns the
`{0, 0, "Insufficient data"}` literal of the `len(r_peaks) < 2` guard instead. -/
theorem C3_could_not_detect (sig : List ℚ) (rPeaks : List ℕ) (fs : ℚ)
    (h2 : 2 ≤ rPeaks.length) (hw : qrsWidths sig rPeaks fs = []) :
    measure_qrs_width sig rPeaks fs =
      { mean_qrs_ms := 80, std_qrs_sq := 0, qrs_interpretation := "Could not detect" } := by
  unfold measure_qrs_width
  rw [if_neg (by omega), hw]
  rfl

theorem C3_could_not_detect_witness :
    (2 ≤ [(0 : ℕ), 10].length ∧ qrsWidths (List.replicate 30 0) [0, 10] 250 = []) ∧
      measure_qrs_width (List.replicate 30 0) [0, 10] 250 =
        { mean_qrs_ms := 80, std_qrs_sq := 0, qrs_interpretation := "Could not detect" } :=
  ⟨⟨by decide, by with_unfolding_all decide⟩,
    C3_could_not_detect (List.replicate 30 0) [0, 10] 250 (by decide)
      (by with_unfolding_all decide)⟩

/-! ## C8 -/

/-- C8: the pipeline is deterministic — for fixed front-end filters, samples,
sample rate and verbosity flag, `process_ecg_complete` is a pure function and
two runs agree on every field of the result. -/
theorem C8_deterministic (bandpass05to40 notch60 bandpass5to15 : List ℚ → List ℚ)
    (raw : List ℚ) (fs : ℚ) (verbose : Bool) :
    process_ecg_complete bandpass05to40 notch60 bandpass5to15 raw fs verbose =
      process_ecg_complete bandpass05to40 notch60 bandpass5to15 raw fs verbose := rfl

/-! ## C4 -/

/-- C4: the wide-QRS rule of the clinical interpreter.  With
`mean_qrs_ms > 120`: if additionally `avg_bpm > 100` the rhythm label is
overridden to the urgent wide-complex-tachycardia label and that warning is
the one appended (the warning list starts empty, so it is the head); otherwise
the rhythm label is passed through unchanged and `qrs_interpretation` is
appended instead. -/
theorem C4_wide_qrs_rule (rhythmStatus : String) (qrs : QrsMetrics)
    (det : DetectionMetrics) (qt : QtMetrics) (hrv : HrvMetrics)
    (hq : 120 < qrs.mean_qrs_ms) :
    (100 < det.avg_heart_rate_bpm →
      (clinical_interpretation rhythmStatus qrs det qt hrv).1 =
          "Wide-Complex Tachycardia - URGENT EVALUATION" ∧
        (clinical_interpretation rhythmStatus qrs det qt hrv).2.head? =
          some "Wide QRS with tachycardia requires immediate assessment") ∧
    (det.avg_heart_rate_bpm ≤ 100 →
      (clinical_interpretation rhythmStatus qrs det qt hrv).1 = rhythmStatus ∧
        (clinical_interpretation rhythmStatus qrs det qt hrv).2.head? =
          some qrs.qrs_interpretation) := by
  unfold clinical_interpretation
  rw [if_pos hq]
  constructor
  · intro hb
    rw [if_pos hb]
    refine ⟨rfl, ?_⟩
    split_ifs <;> rfl
  · intro hb
    rw [if_neg (not_lt.mpr hb)]
    refine ⟨rfl, ?_⟩
    split_ifs <;> rfl

theorem C4_wide_qrs_rule_witness :
    ((120 : ℚ) < 140 ∧ (100 : ℚ) < 130) ∧
      ((clinical_interpretation "Tachycardia"
          { mean_qrs_ms := 140, std_qrs_sq := 0, qrs_interpretation := "Wide QRS (BBB/Ventricular)" }
          { num_peaks := 5, avg_heart_rate_bpm := 130, avg_rr_interval_s := none,
            rr_var_s := none, final_threshold := 0 }
          { mean_qt_ms := 0, qtc_bazett_sq := 0, qt_risk_flag := false, qt_interpretation := "N/A" }
          { sdnn_sq := 0, rmssd_sq := 0, pnn50_percent := 0, sdsd_sq := none,
            pnn20_percent := none, mean_nn_ms := none, cv_percent_sq := none,
            nn_count := none, ectopic_removed := none, hrv_interpretation := "Insufficient data" }).1 =
        "Wide-Complex Tachycardia - URGENT EVALUATION" ∧
      (clinical_interpretation "Tachycardia"
          { mean_qrs_ms := 140, std_qrs_sq := 0, qrs_interpretation := "Wide QRS (BBB/Ventricular)" }
          { num_peaks := 5, avg_heart_rate_bpm := 130, avg_rr_interval_s := none,
            rr_var_s := none, final_threshold := 0 }
          { mean_qt_ms := 0, qtc_bazett_sq := 0, qt_risk_flag := false, qt_interpretation := "N/A" }
          { sdnn_sq := 0, rmssd_sq := 0, pnn50_percent := 0, sdsd_sq := none,
            pnn20_percent := none, mean_nn_ms := none, cv_percent_sq := none,
            nn_count := none, ectopic_removed := none, hrv_interpretation := "Insufficient data" }).2.head? =
        some "Wide QRS with tachycardia requires immediate assessment") :=
  ⟨⟨by norm_num, by norm_num⟩,
    (C4_wide_qrs_rule "Tachycardia" _ _ _ _ (by norm_num)).1 (by norm_num)⟩

/-! ## C10 -/

/-- C10: frame property of one adaptive-thresholding iteration.  A strict
local maximum of the integrated signal above the current threshold that fails
the refractory check — or passes it but fails the amplitude gate — leaves
threshold, `signal_peaks`, `noise_peaks` and `r_peaks` unchanged and advances
the scan position by exactly one (no refractory skip); and `noise_peaks` only
ever grows at a local maximum that is at or below the threshold, by exactly
that maximum's integrated value. -/
theorem C10_frame_effect (integ sig : List ℚ) (refr w : ℕ) (st : PTState) :
    (((integ.getD (st.i - 1) 0 < integ.getD st.i 0 ∧
          integ.getD (st.i + 1) 0 < integ.getD st.i 0) ∧
        st.threshold < integ.getD st.i 0 ∧
        (refrOk refr st.rPeaks st.i = false ∨
          (searchSlice sig w st.i ≠ [] ∧
            ampGate sig (sig.getD (relocatedPeak sig w st.i) 0) = false))) →
      ptStep integ sig refr w st = { st with i := st.i + 1 }) ∧
    ((ptStep integ sig refr w st).noisePeaks ≠ st.noisePeaks →
      (integ.getD (st.i - 1) 0 < integ.getD st.i 0 ∧
          integ.getD (st.i + 1) 0 < integ.getD st.i 0) ∧
        integ.getD st.i 0 ≤ st.threshold ∧
        (ptStep integ sig refr w st).noisePeaks =
          st.noisePeaks ++ [integ.getD st.i 0]) := by
  constructor
  · rintro ⟨hmax, habove, hfail⟩
    simp only [ptStep]
    rw [if_pos hmax, if_pos habove]
    rcases hfail with hrefr | ⟨hne, hgate⟩
    · rw [if_neg (by rw [hrefr]; exact Bool.false_ne_true)]
    · by_cases hok : refrOk refr st.rPeaks st.i = true
      · rw [if_pos hok, if_pos hne, if_neg (by rw [hgate]; exact Bool.false_ne_true)]
      · rw [if_neg hok]
  · intro hchange
    simp only [ptStep] at hchange ⊢
    by_cases h1 : integ.getD (st.i - 1) 0 < integ.getD st.i 0 ∧
        integ.getD (st.i + 1) 0 < integ.getD st.i 0
    case neg => rw [if_neg h1] at hchange; exact absurd rfl hchange
    rw [if_pos h1] at hchange ⊢
    by_cases h2 : st.threshold < integ.getD st.i 0
    case pos =>
      rw [if_pos h2] at hchange
      exfalso
      by_cases h3 : refrOk refr st.rPeaks st.i = true
      · rw [if_pos h3] at hchange
        by_cases h4 : searchSlice sig w st.i ≠ []
        · rw [if_pos h4] at hchange
          by_cases h5 : ampGate sig (sig.getD (relocatedPeak sig w st.i) 0) = true
          · rw [if_pos h5] at hchange; exact hchange rfl
          · rw [if_neg h5] at hchange; exact hchange rfl
        · rw [if_neg h4] at hchange; exact hchange rfl
      · rw [if_neg h3] at hchange; exact hchange rfl
    case neg =>
      rw [if_neg h2] at hchange ⊢
      exact ⟨h1, not_lt.mp h2, rfl⟩

theorem C10_frame_effect_witness :
    (((0 : ℚ) < 2 ∧ (0 : ℚ) < 2) ∧ (1 : ℚ) < 2 ∧
        refrOk 3 [5] 1 = false) ∧
      ptStep [0, 2, 0] [0, 1] 3 1
          { i := 1, rPeaks := [5], signalPeaks := [], noisePeaks := [], threshold := 1 } =
        { i := 2, rPeaks := [5], signalPeaks := [], noisePeaks := [], threshold := 1 } :=
  ⟨⟨⟨by norm_num, by norm_num⟩, by norm_num, by with_unfolding_all decide⟩,
    (C10_frame_effect [0, 2, 0] [0, 1] 3 1
        { i := 1, rPeaks := [5], signalPeaks := [], noisePeaks := [], threshold := 1 }).1
      (by
        refine ⟨⟨?_, ?_⟩, ?_, Or.inl ?_⟩ <;> with_unfolding_all decide)⟩

/-! ## C5 -/

theorem containsNormal_brady : containsNormal "Bradycardia" = false := by
  with_unfolding_all rfl

theorem containsNormal_tachy : containsNormal "Tachycardia" = false := by
  with_unfolding_all rfl

theorem containsNormal_nsr : containsNormal "Normal Sinus Rhythm" = true := by
  with_unfolding_all rfl

/-- C5: the rhythm label equals the claim's description — "Insufficient data"
below 3 peaks; otherwise `cv ≥ 0.15` gives "Flagged: Irregular Rhythm"
regardless of the mean rate; otherwise the rate tier, except that a
"Normal Sinus Rhythm" tier with `cv ≥ 0.08` becomes
"Borderline: Mild Irregularity" (`classify_rhythm_spec` spells the claim out;
the source computes the tier first and overrides it afterwards). -/
theorem C5_rhythm_label (rPeaks : List ℕ) (fs : ℚ) :
    (detect_arrhythmia rPeaks fs).1 = classify_rhythm_spec rPeaks fs := by
  unfold detect_arrhythmia classify_rhythm_spec
  by_cases h3 : rPeaks.length < 3
  · simp [h3]
  · simp only [if_neg h3]
    generalize npVar (List.map (fun d => d / fs) (diffsN rPeaks)) = V
    generalize qmean (List.map (fun d => d / fs) (diffsN rPeaks)) = M
    generalize qmean (List.map (fun x => 60 / x) (List.map (fun d => d / fs) (diffsN rPeaks))) = H
    by_cases c15 : cvGE V M (3 / 20)
    · simp [c15]
    · by_cases hbr : H < 60
      · simp [c15, hbr, containsNormal_brady]
      · by_cases hta : 100 < H
        · simp [c15, hbr, hta, containsNormal_tachy]
        · by_cases c08 : cvGE V M (2 / 25)
          · simp [c15, hbr, hta, c08, containsNormal_nsr]
          · simp [c15, hbr, hta, c08]

/-! ## Detector-loop invariants (shared by C1 and C6) -/

theorem ratTrunc_le_ratTrunc {a b : ℚ} (h : a ≤ b) : ratTrunc a ≤ ratTrunc b := by
  unfold ratTrunc
  exact Int.toNat_le_toNat (Int.floor_le_floor h)

/-- A nonempty relocation window needs `w ≥ 1` (for `w = 0` the slice
`sig[max(0,i−0) : min(len,i+0)]` is empty, so the source skips). -/
theorem searchSlice_ne_nil_w_pos {sig : List ℚ} {w i : ℕ} (h : searchSlice sig w i ≠ []) :
    1 ≤ w := by
  by_contra h0
  have hw : w = 0 := by omega
  subst hw
  apply h
  unfold searchSlice slice
  have : min sig.length (i + 0) - (i - 0) = 0 := by omega
  simp [this]

/-- Every loop iteration strictly advances the scan position (acceptance jumps
by the refractory period, which is positive whenever acceptance is reachable);
this is what makes fuel `len(integrated)` compute the loop's true fixpoint. -/
theorem ptStep_i_lt (integ sig : List ℚ) (refr w : ℕ) (st : PTState) (hwr : w ≤ refr) :
    st.i < (ptStep integ sig refr w st).i := by
  simp only [ptStep]
  split_ifs with h1 h2 h3 h4 h5 <;>
    first
      | (show st.i < st.i + 1
         omega)
      | (have hw := searchSlice_ne_nil_w_pos (show searchSlice sig w st.i ≠ [] by assumption)
         show st.i < st.i + refr
         omega)

theorem refrOk_spec (refr : ℕ) (l : List ℕ) (i x : ℕ) (hok : refrOk refr l i = true)
    (hx : l.getLast? = some x) : x + refr < i := by
  unfold refrOk at hok
  rw [hx] at hok
  exact of_decide_eq_true hok

/-- Relocation moves an accepted peak at most `w` to the left of the candidate
(`start_idx = max(0, i−w)` and argmax offsets are nonnegative). -/
theorem le_relocatedPeak_add (sig : List ℚ) (w i : ℕ) : i ≤ relocatedPeak sig w i + w := by
  unfold relocatedPeak
  omega

/-- The inter-peak invariant preserved by one loop iteration: consecutive
accepted peaks satisfy `a + refractory < b + w`.  On acceptance the refractory
check `r_peaks[-1] + refractory < i` is against the *candidate* `i`, and the
new peak `b` satisfies `i ≤ b + w`. -/
theorem ptStep_chain (integ sig : List ℚ) (refr w : ℕ) (st : PTState)
    (h : List.Chain' (fun a b => a + refr < b + w) st.rPeaks) :
    List.Chain' (fun a b => a + refr < b + w) (ptStep integ sig refr w st).rPeaks := by
  simp only [ptStep]
  split_ifs with h1 h2 h3 h4 h5 <;> try exact h
  all_goals
    show List.Chain' _ (st.rPeaks ++ [relocatedPeak sig w st.i])
    rw [List.chain'_append]
    refine ⟨h, List.chain'_singleton _, ?_⟩
    intro x hx y hy
    have hx' : st.rPeaks.getLast? = some x := hx
    have hy' : y = relocatedPeak sig w st.i := by
      have := List.mem_of_mem_head? hy
      simpa using this
    subst hy'
    have hlt := refrOk_spec refr st.rPeaks st.i x h3 hx'
    have hle := le_relocatedPeak_add sig w st.i
    omega

theorem ptLoop_chain (integ sig : List ℚ) (refr w : ℕ) (fuel : ℕ) (st : PTState)
    (h : List.Chain' (fun a b => a + refr < b + w) st.rPeaks) :
    List.Chain' (fun a b => a + refr < b + w) ((ptLoop integ sig refr w fuel st).rPeaks) := by
  induction fuel generalizing st with
  | zero => exact h
  | succ n ih =>
    unfold ptLoop
    split
    · exact ih _ (ptStep_chain integ sig refr w st h)
    · exact h

/-- Fuel adequacy: with fuel at least the remaining scan range, extra fuel
does not change the loop's result — the fuel-indexed `ptLoop` at fuel
`len(integrated)` is the source's unbounded while-loop. -/
theorem ptLoop_fuel_stable (integ sig : List ℚ) (refr w : ℕ) (hwr : w ≤ refr) :
    ∀ fuel extra st, integ.length ≤ st.i + 1 + fuel →
      ptLoop integ sig refr w (fuel + extra) st = ptLoop integ sig refr w fuel st := by
  intro fuel
  induction fuel with
  | zero =>
    intro extra st hlen
    rw [Nat.zero_add]
    cases extra with
    | zero => rfl
    | succ e =>
      unfold ptLoop
      rw [if_neg (by omega)]
  | succ n ih =>
    intro extra st hlen
    rw [show n + 1 + extra = (n + extra) + 1 from by omega]
    unfold ptLoop
    by_cases hg : st.i + 1 < integ.length
    · rw [if_pos hg, if_pos hg]
      apply ih
      have := ptStep_i_lt integ sig refr w st hwr
      omega
    · rw [if_neg hg, if_neg hg]

/-- Consecutive peaks returned by the detector are more than
`int(0.2·fs) − int(0.08·fs)` samples apart (stated subtraction-free as
`a + int(0.2·fs) < b + int(0.08·fs)`), for every front-end filter slot
instantiation, input signal and fs: the refractory check is enforced against
the pre-relocation candidate, and relocation moves an accepted peak at most
`int(0.08·fs)` samples left of it. -/
theorem pan_tompkins_chain (bp : List ℚ → List ℚ) (ecg : List ℚ) (fs : ℚ) :
    List.Chain' (fun a b => a + ratTrunc (fs / 5) < b + ratTrunc ((2 / 25) * fs))
      (pan_tompkins_detector bp ecg fs).1 := by
  unfold pan_tompkins_detector
  exact ptLoop_chain _ _ _ _ _ _ List.chain'_nil

/-- The r-peak list is strictly increasing (for `fs ≥ 0` the relocation
half-window `int(0.08·fs)` never exceeds the refractory period `int(0.2·fs)`). -/
theorem pan_tompkins_strictMono (bp : List ℚ → List ℚ) (ecg : List ℚ) (fs : ℚ)
    (hfs : 0 ≤ fs) : List.Chain' (· < ·) (pan_tompkins_detector bp ecg fs).1 := by
  have hwr : ratTrunc ((2 / 25) * fs) ≤ ratTrunc (fs / 5) :=
    ratTrunc_le_ratTrunc (by linarith)
  exact (pan_tompkins_chain bp ecg fs).imp (fun hab => by omega)

/-! ## C6 -/

theorem qmean_map_div (l : List ℚ) (c : ℚ) :
    qmean (l.map (fun d => d / c)) = qmean l / c := by
  unfold qmean
  rw [List.length_map]
  have hs : (l.map (fun d => d / c)).sum = l.sum / c := by
    induction l with
    | nil => simp
    | cons x t ih => simp [ih, add_div]
  rw [hs]
  ring

theorem diffsN_one_le (l : List ℕ) (hch : List.Chain' (· < ·) l) :
    ∀ x ∈ diffsN l, 1 ≤ x := by
  induction l with
  | nil => simp [diffsN]
  | cons a t ih =>
    cases t with
    | nil => simp [diffsN]
    | cons b t2 =>
      rw [List.chain'_cons] at hch
      intro x hx
      unfold diffsN at hx
      simp only [List.tail_cons, List.zipWith_cons_cons] at hx
      rcases List.mem_cons.mp hx with hx | hx
      · subst hx
        show (1 : ℚ) ≤ (b : ℚ) - (a : ℚ)
        have : (a : ℚ) + 1 ≤ (b : ℚ) := by exact_mod_cast hch.1
        linarith
      · exact ih hch.2 x hx

theorem diffsN_ne_nil (l : List ℕ) (h2 : 2 ≤ l.length) : diffsN l ≠ [] := by
  unfold diffsN
  intro hnil
  have hlen := congrArg List.length hnil
  rw [List.length_zipWith, List.length_tail] at hlen
  simp only [List.length_nil] at hlen
  omega

theorem qmean_pos_of_one_le (l : List ℚ) (hne : l ≠ []) (h1 : ∀ x ∈ l, 1 ≤ x) :
    0 < qmean l := by
  unfold qmean
  apply div_pos
  · exact List.sum_pos l (fun x hx => lt_of_lt_of_le one_pos (h1 x hx)) hne
  · exact_mod_cast List.length_pos.mpr hne

theorem detectionMetricsOf_final_threshold (p : List ℕ) (fs thr : ℚ) :
    (detectionMetricsOf p fs thr).final_threshold = thr := by
  unfold detectionMetricsOf
  split_ifs <;> rfl

theorem pan_tompkins_metrics (bp : List ℚ → List ℚ) (ecg : List ℚ) (fs : ℚ) :
    (pan_tompkins_detector bp ecg fs).2 =
      detectionMetricsOf (pan_tompkins_detector bp ecg fs).1 fs
        (pan_tompkins_detector bp ecg fs).2.final_threshold := by
  simp only [pan_tompkins_detector]
  rw [detectionMetricsOf_final_threshold]

/-- With at least two strictly increasing peaks the source's
`avg_bpm = 60/mean(diff(peaks)/fs)` equals `60·fs/mean(diff(peaks))` exactly
(the `avg_rr > 0` guard holds since every diff is at least 1). -/
theorem detectionMetricsOf_avg_bpm (p : List ℕ) (fs thr : ℚ) (hfs : 0 < fs)
    (hmono : List.Chain' (· < ·) p) :
    (2 ≤ p.length →
        (detectionMetricsOf p fs thr).avg_heart_rate_bpm = 60 * fs / qmean (diffsN p)) ∧
      (p.length < 2 → (detectionMetricsOf p fs thr).avg_heart_rate_bpm = 0) := by
  constructor
  · intro h2
    unfold detectionMetricsOf
    rw [if_pos h2]
    have hdpos : 0 < qmean (diffsN p) :=
      qmean_pos_of_one_le _ (diffsN_ne_nil p h2) (diffsN_one_le p hmono)
    show (if 0 < qmean ((diffsN p).map (fun d => d / fs)) then
        60 / qmean ((diffsN p).map (fun d => d / fs)) else 0) = _
    rw [qmean_map_div]
    rw [if_pos (div_pos hdpos hfs)]
    field_simp
  · intro h1
    unfold detectionMetricsOf
    rw [if_neg (by omega)]

/-- C6: for every run of the detector (any front-end filter, signal, and
positive fs), if at least 2 peaks are returned then
`avg_bpm = 60·fs/mean(diff(r_peaks))` exactly, and with fewer than 2 peaks
`avg_bpm = 0`. -/
theorem C6_avg_bpm (bp : List ℚ → List ℚ) (ecg : List ℚ) (fs : ℚ) (hfs : 0 < fs) :
    (2 ≤ (pan_tompkins_detector bp ecg fs).1.length →
        (pan_tompkins_detector bp ecg fs).2.avg_heart_rate_bpm =
          60 * fs / qmean (diffsN (pan_tompkins_detector bp ecg fs).1)) ∧
      ((pan_tompkins_detector bp ecg fs).1.length < 2 →
        (pan_tompkins_detector bp ecg fs).2.avg_heart_rate_bpm = 0) := by
  have h := detectionMetricsOf_avg_bpm (pan_tompkins_detector bp ecg fs).1 fs
    (pan_tompkins_detector bp ecg fs).2.final_threshold hfs
    (pan_tompkins_strictMono bp ecg fs (le_of_lt hfs))
  rw [← pan_tompkins_metrics bp ecg fs] at h
  exact h

theorem C6_avg_bpm_witness :
    (0 : ℚ) < 25 ∧
      ((2 ≤ (pan_tompkins_detector egFrontEnd egEcg 25).1.length →
          (pan_tompkins_detector egFrontEnd egEcg 25).2.avg_heart_rate_bpm =
            60 * 25 / qmean (diffsN (pan_tompkins_detector egFrontEnd egEcg 25).1)) ∧
        ((pan_tompkins_detector egFrontEnd egEcg 25).1.length < 2 →
          (pan_tompkins_detector egFrontEnd egEcg 25).2.avg_heart_rate_bpm = 0)) :=
  ⟨by norm_num, C6_avg_bpm egFrontEnd egEcg 25 (by norm_num)⟩


/-! ## C7: scale invariance -/


theorem getD_map_mul (c d : ℚ) : ∀ (l : List ℚ) (i : ℕ),
    (l.map (fun x => c * x)).getD i (c * d) = c * l.getD i d
  | [], _ => rfl
  | x :: t, 0 => rfl
  | x :: t, i + 1 => getD_map_mul c d t i

theorem getD_map_mul_zero (c : ℚ) (l : List ℚ) (i : ℕ) :
    (l.map (fun x => c * x)).getD i 0 = c * l.getD i 0 := by
  have := getD_map_mul c 0 l i
  simpa using this

theorem sum_map_mul (c : ℚ) : ∀ (l : List ℚ), (l.map (fun x => c * x)).sum = c * l.sum
  | [] => by simp
  | x :: t => by simp [sum_map_mul c t]; ring

theorem qmean_map_mul (c : ℚ) (l : List ℚ) :
    qmean (l.map (fun x => c * x)) = c * qmean l := by
  unfold qmean
  rw [List.length_map, sum_map_mul]
  ring

theorem npVar_map_mul (c : ℚ) (l : List ℚ) :
    npVar (l.map (fun x => c * x)) = c ^ 2 * npVar l := by
  unfold npVar
  rw [qmean_map_mul]
  rw [List.map_map]
  have h1 : ((fun x => (x - c * qmean l) ^ 2) ∘ fun x => c * x) =
      (fun x => c ^ 2 * ((x - qmean l) ^ 2)) := by
    funext x
    simp only [Function.comp]
    ring
  rw [h1]
  rw [show (fun x => c ^ 2 * (x - qmean l) ^ 2) =
      ((fun y => c ^ 2 * y) ∘ fun x => (x - qmean l) ^ 2) from rfl]
  rw [← List.map_map, qmean_map_mul]

theorem listMax_map_mul (c : ℚ) (hc : 0 ≤ c) : ∀ (l : List ℚ),
    listMax (l.map (fun x => c * x)) = c * listMax l
  | [] => by simp [listMax]
  | [x] => by simp [listMax]
  | x :: y :: t => by
    have ih := listMax_map_mul c hc (y :: t)
    simp only [List.map_cons] at ih ⊢
    rw [listMax, listMax, ih, mul_max_of_nonneg _ _ hc]

theorem argmaxFirst_map_mul (c : ℚ) (hc : 0 < c) : ∀ (l : List ℚ),
    argmaxFirst (l.map (fun x => c * x)) = argmaxFirst l
  | [] => rfl
  | [x] => rfl
  | x :: y :: t => by
    have ih := argmaxFirst_map_mul c hc (y :: t)
    simp only [List.map_cons] at ih ⊢
    have hm := listMax_map_mul c (le_of_lt hc) (y :: t)
    simp only [List.map_cons] at hm
    rw [argmaxFirst, argmaxFirst, hm, ih]
    exact if_congr (mul_lt_mul_left hc) rfl rfl



theorem insertionSort_map_mul (c : ℚ) (hc : 0 ≤ c) (l : List ℚ) :
    List.insertionSort (· ≤ ·) (l.map (fun x => c * x)) =
      (List.insertionSort (· ≤ ·) l).map (fun x => c * x) := by
  have hperm : (List.insertionSort (· ≤ ·) (l.map (fun x => c * x))).Perm
      ((List.insertionSort (· ≤ ·) l).map (fun x => c * x)) :=
    (List.perm_insertionSort _ _).trans
      (((List.perm_insertionSort (· ≤ ·) l).map (fun x => c * x)).symm)
  exact List.eq_of_perm_of_sorted hperm (List.sorted_insertionSort _ _)
    (List.Pairwise.map _ (fun a b hab => mul_le_mul_of_nonneg_left hab hc)
      (List.sorted_insertionSort _ _))

theorem percentile98_map_mul (c : ℚ) (hc : 0 ≤ c) (l : List ℚ) :
    percentile98 (l.map (fun x => c * x)) = c * percentile98 l := by
  simp only [percentile98]
  rw [insertionSort_map_mul c hc, List.length_map]
  by_cases h0 : (List.insertionSort (· ≤ ·) l).length = 0
  · rw [if_pos h0, if_pos h0, mul_zero]
  · rw [if_neg h0, if_neg h0]
    simp only [getD_map_mul_zero, getD_map_mul]
    ring

theorem slice_map_mul (c : ℚ) (l : List ℚ) (s e : ℕ) :
    slice (l.map (fun x => c * x)) s e = (slice l s e).map (fun x => c * x) := by
  unfold slice
  rw [← List.map_drop, ← List.map_take]

theorem lastN_map_mul (c : ℚ) (n : ℕ) (l : List ℚ) :
    lastN n (l.map (fun x => c * x)) = (lastN n l).map (fun x => c * x) := by
  unfold lastN
  rw [List.length_map, ← List.map_drop]

theorem searchSlice_map_mul (c : ℚ) (sig : List ℚ) (w i : ℕ) :
    searchSlice (sig.map (fun x => c * x)) w i = (searchSlice sig w i).map (fun x => c * x) := by
  unfold searchSlice
  rw [List.length_map, slice_map_mul]

theorem relocatedPeak_map_mul (c : ℚ) (hc : 0 < c) (sig : List ℚ) (w i : ℕ) :
    relocatedPeak (sig.map (fun x => c * x)) w i = relocatedPeak sig w i := by
  unfold relocatedPeak
  rw [searchSlice_map_mul, argmaxFirst_map_mul c hc]

theorem ampGate_map_mul (c : ℚ) (hc : 0 < c) (sig : List ℚ) (pv : ℚ) :
    ampGate (sig.map (fun x => c * x)) (c * pv) = ampGate sig pv := by
  unfold ampGate
  apply decide_eq_decide.mpr
  rw [npVar_map_mul]
  have hc2 : (0 : ℚ) < c ^ 2 := by positivity
  constructor
  · rintro ⟨h1, h2⟩
    have hpv : 0 < pv := by nlinarith
    have h2x : c ^ 2 * npVar sig < c ^ 2 * (4 * pv ^ 2) := by nlinarith
    exact ⟨hpv, lt_of_mul_lt_mul_left h2x (le_of_lt hc2)⟩
  · rintro ⟨h1, h2⟩
    exact ⟨mul_pos hc h1, by nlinarith⟩



theorem ptStep_scale (d c : ℚ) (hd : 0 < d) (hc : 0 < c) (integ sig : List ℚ)
    (refr w : ℕ) (st : PTState) :
    ptStep (integ.map (fun x => d * x)) (sig.map (fun x => c * x)) refr w (scaleState d st) =
      scaleState d (ptStep integ sig refr w st) := by
  simp only [ptStep, scaleState]
  have e1 : ((integ.map (fun x => d * x)).getD (st.i - 1) 0 <
        (integ.map (fun x => d * x)).getD st.i 0 ∧
      (integ.map (fun x => d * x)).getD (st.i + 1) 0 <
        (integ.map (fun x => d * x)).getD st.i 0) ↔
      (integ.getD (st.i - 1) 0 < integ.getD st.i 0 ∧
        integ.getD (st.i + 1) 0 < integ.getD st.i 0) := by
    rw [getD_map_mul_zero, getD_map_mul_zero, getD_map_mul_zero,
      mul_lt_mul_left hd, mul_lt_mul_left hd]
  by_cases h1 : integ.getD (st.i - 1) 0 < integ.getD st.i 0 ∧
      integ.getD (st.i + 1) 0 < integ.getD st.i 0
  case neg => rw [if_neg (fun hx => h1 (e1.mp hx)), if_neg h1]
  rw [if_pos (e1.mpr h1), if_pos h1]
  have e2 : (d * st.threshold < (integ.map (fun x => d * x)).getD st.i 0) ↔
      (st.threshold < integ.getD st.i 0) := by
    rw [getD_map_mul_zero, mul_lt_mul_left hd]
  by_cases h2 : st.threshold < integ.getD st.i 0
  case neg =>
    rw [if_neg (fun hx => h2 (e2.mp hx)), if_neg h2]
    simp only [PTState.mk.injEq]
    refine ⟨trivial, trivial, trivial, ?_, trivial⟩
    rw [getD_map_mul_zero, List.map_append]
    rfl
  rw [if_pos (e2.mpr h2), if_pos h2]
  by_cases h3 : refrOk refr st.rPeaks st.i = true
  case neg => rw [if_neg h3, if_neg h3]
  rw [if_pos h3, if_pos h3]
  have e4 : (searchSlice (sig.map (fun x => c * x)) w st.i ≠ []) ↔
      (searchSlice sig w st.i ≠ []) := by
    rw [searchSlice_map_mul]
    simp
  by_cases h4 : searchSlice sig w st.i ≠ []
  case neg => rw [if_neg (fun hx => h4 (e4.mp hx)), if_neg h4]
  rw [if_pos (e4.mpr h4), if_pos h4]
  have e5 : (ampGate (sig.map (fun x => c * x))
        ((sig.map (fun x => c * x)).getD (relocatedPeak (sig.map (fun x => c * x)) w st.i) 0) = true) ↔
      (ampGate sig (sig.getD (relocatedPeak sig w st.i) 0) = true) := by
    rw [relocatedPeak_map_mul c hc, getD_map_mul_zero, ampGate_map_mul c hc]
  by_cases h5 : ampGate sig (sig.getD (relocatedPeak sig w st.i) 0) = true
  case neg => rw [if_neg (fun hx => h5 (e5.mp hx)), if_neg h5]
  rw [if_pos (e5.mpr h5), if_pos h5]
  simp only [PTState.mk.injEq]
  refine ⟨trivial, ?_, ?_, trivial, ?_⟩
  · rw [relocatedPeak_map_mul c hc]
  · rw [getD_map_mul_zero, List.map_append]
    rfl
  · rw [getD_map_mul_zero]
    have hsp : (st.signalPeaks.map (fun x => d * x)) ++ [d * integ.getD st.i 0] =
        (st.signalPeaks ++ [integ.getD st.i 0]).map (fun x => d * x) := by
      rw [List.map_append]
      rfl
    rw [hsp]
    by_cases hnp : st.noisePeaks = []
    · rw [if_pos (by rw [hnp]; rfl), if_pos hnp, lastN_map_mul, qmean_map_mul]
      ring
    · rw [if_neg (by simpa using hnp), if_neg hnp, lastN_map_mul, qmean_map_mul,
        lastN_map_mul, qmean_map_mul]
      ring



theorem ptLoop_scale (d c : ℚ) (hd : 0 < d) (hc : 0 < c) (integ sig : List ℚ)
    (refr w : ℕ) (fuel : ℕ) (st : PTState) :
    ptLoop (integ.map (fun x => d * x)) (sig.map (fun x => c * x)) refr w fuel (scaleState d st) =
      scaleState d (ptLoop integ sig refr w fuel st) := by
  induction fuel generalizing st with
  | zero => rfl
  | succ n ih =>
    unfold ptLoop
    rw [List.length_map]
    show (if (scaleState d st).i + 1 < integ.length then _ else _) = _
    by_cases hg : st.i + 1 < integ.length
    · rw [if_pos (show (scaleState d st).i + 1 < integ.length from hg), if_pos hg,
        ptStep_scale d c hd hc, ih]
    · rw [if_neg (show ¬ (scaleState d st).i + 1 < integ.length from hg),
        if_neg hg]

theorem fivePointDerivative_map_mul (fs c : ℚ) (x : List ℚ) :
    fivePointDerivative fs (x.map (fun y => c * y)) =
      (fivePointDerivative fs x).map (fun y => c * y) := by
  unfold fivePointDerivative
  simp only [List.length_map]
  rw [List.map_map]
  apply List.map_congr_left
  intro i _
  simp only [Function.comp]
  split_ifs with h
  · rw [getD_map_mul_zero, getD_map_mul_zero, getD_map_mul_zero, getD_map_mul_zero]
    ring
  · ring

theorem squares_map_mul (c : ℚ) (l : List ℚ) :
    (l.map (fun y => c * y)).map (fun d => d ^ 2) =
      (l.map (fun d => d ^ 2)).map (fun y => c ^ 2 * y) := by
  rw [List.map_map, List.map_map]
  apply List.map_congr_left
  intro a _
  simp only [Function.comp]
  ring

theorem convolveMeanSame_map_mul (c : ℚ) (w : ℕ) (a : List ℚ) :
    convolveMeanSame w (a.map (fun y => c * y)) =
      (convolveMeanSame w a).map (fun y => c * y) := by
  unfold convolveMeanSame
  simp only [List.length_map]
  rw [List.map_map]
  apply List.map_congr_left
  intro k _
  simp only [Function.comp]
  have hinner : (List.range w).map (fun j =>
        if j ≤ k + (min a.length w - 1) / 2 then
          (a.map (fun y => c * y)).getD (k + (min a.length w - 1) / 2 - j) 0
        else 0) =
      ((List.range w).map (fun j =>
        if j ≤ k + (min a.length w - 1) / 2 then a.getD (k + (min a.length w - 1) / 2 - j) 0
        else 0)).map (fun y => c * y) := by
    rw [List.map_map]
    apply List.map_congr_left
    intro j _
    simp only [Function.comp]
    split_ifs with h
    · rw [getD_map_mul_zero]
    · ring
  rw [hinner, sum_map_mul]
  ring

theorem uniformFilter1dNearest_map_mul (c : ℚ) (size : ℕ) (x : List ℚ) :
    uniformFilter1dNearest size (x.map (fun y => c * y)) =
      (uniformFilter1dNearest size x).map (fun y => c * y) := by
  unfold uniformFilter1dNearest
  simp only [List.length_map]
  rw [List.map_map]
  apply List.map_congr_left
  intro i _
  simp only [Function.comp]
  have hinner : (List.range size).map (fun k =>
        (x.map (fun y => c * y)).getD (clampIdx x.length ((i : ℤ) + (k : ℤ) - (size / 2 : ℕ))) 0) =
      ((List.range size).map (fun k =>
        x.getD (clampIdx x.length ((i : ℤ) + (k : ℤ) - (size / 2 : ℕ))) 0)).map (fun y => c * y) := by
    rw [List.map_map]
    apply List.map_congr_left
    intro k _
    simp only [Function.comp]
    rw [getD_map_mul_zero]
  rw [hinner, sum_map_mul]
  ring

theorem zipWith_sub_map_mul (c : ℚ) : ∀ (u v : List ℚ),
    List.zipWith (fun a b => a - b) (u.map (fun x => c * x)) (v.map (fun x => c * x)) =
      (List.zipWith (fun a b => a - b) u v).map (fun x => c * x)
  | [], v => by simp
  | u, [] => by simp
  | a :: u, b :: v => by
    simp only [List.map_cons, List.zipWith_cons_cons]
    rw [zipWith_sub_map_mul c u v]
    congr 1
    ring

theorem preprocess_map_mul (bandF notchF : List ℚ → List ℚ)
    (hband : ∀ (a : ℚ) (l : List ℚ), bandF (l.map (fun x => a * x)) = (bandF l).map (fun x => a * x))
    (hnotch : ∀ (a : ℚ) (l : List ℚ), notchF (l.map (fun x => a * x)) = (notchF l).map (fun x => a * x))
    (raw : List ℚ) (fs c : ℚ) :
    (preprocess_ecg bandF notchF (raw.map (fun x => c * x)) fs).1 =
      ((preprocess_ecg bandF notchF raw fs).1).map (fun x => c * x) := by
  simp only [preprocess_ecg]
  rw [hband, hnotch, uniformFilter1dNearest_map_mul, zipWith_sub_map_mul]

theorem pan_tompkins_scale (qrsF : List ℚ → List ℚ)
    (hqrs : ∀ (a : ℚ) (l : List ℚ), qrsF (l.map (fun x => a * x)) = (qrsF l).map (fun x => a * x))
    (ecg : List ℚ) (fs c : ℚ) (hc : 0 < c) :
    (pan_tompkins_detector qrsF (ecg.map (fun x => c * x)) fs).1 =
      (pan_tompkins_detector qrsF ecg fs).1 := by
  simp only [pan_tompkins_detector]
  rw [hqrs, fivePointDerivative_map_mul, squares_map_mul, convolveMeanSame_map_mul,
    percentile98_map_mul (c ^ 2) (by positivity)]
  rw [List.length_map]
  have hthr : (3 : ℚ) / 5 * (c ^ 2 *
      percentile98 (convolveMeanSame (ratTrunc (3 / 25 * fs))
        ((fivePointDerivative fs (qrsF ecg)).map (fun d => d ^ 2)))) =
      c ^ 2 * ((3 : ℚ) / 5 *
      percentile98 (convolveMeanSame (ratTrunc (3 / 25 * fs))
        ((fivePointDerivative fs (qrsF ecg)).map (fun d => d ^ 2)))) := by ring
  rw [hthr]
  rw [show (PTState.mk 1 [] [] [] (c ^ 2 * ((3 : ℚ) / 5 *
      percentile98 (convolveMeanSame (ratTrunc (3 / 25 * fs))
        ((fivePointDerivative fs (qrsF ecg)).map (fun d => d ^ 2)))))) =
      scaleState (c ^ 2) (PTState.mk 1 [] [] [] ((3 : ℚ) / 5 *
      percentile98 (convolveMeanSame (ratTrunc (3 / 25 * fs))
        ((fivePointDerivative fs (qrsF ecg)).map (fun d => d ^ 2))))) from rfl]
  rw [ptLoop_scale (c ^ 2) c (by positivity) hc]
  rfl

theorem detectionMetricsOf_avg_indep (p : List ℕ) (fs t s : ℚ) :
    (detectionMetricsOf p fs t).avg_heart_rate_bpm =
      (detectionMetricsOf p fs s).avg_heart_rate_bpm := by
  unfold detectionMetricsOf
  split_ifs <;> rfl

theorem C7_scale_invariance (bandF notchF qrsF : List ℚ → List ℚ)
    (hband : ∀ (a : ℚ) (l : List ℚ), bandF (l.map (fun x => a * x)) = (bandF l).map (fun x => a * x))
    (hnotch : ∀ (a : ℚ) (l : List ℚ), notchF (l.map (fun x => a * x)) = (notchF l).map (fun x => a * x))
    (hqrs : ∀ (a : ℚ) (l : List ℚ), qrsF (l.map (fun x => a * x)) = (qrsF l).map (fun x => a * x))
    (samples : List ℚ) (fs α : ℚ) (hα : 0 < α) :
    (pan_tompkins_detector qrsF
        (preprocess_ecg bandF notchF (samples.map (fun x => α * x)) fs).1 fs).1 =
      (pan_tompkins_detector qrsF (preprocess_ecg bandF notchF samples fs).1 fs).1 ∧
    (pan_tompkins_detector qrsF
        (preprocess_ecg bandF notchF (samples.map (fun x => α * x)) fs).1 fs).2.avg_heart_rate_bpm =
      (pan_tompkins_detector qrsF
        (preprocess_ecg bandF notchF samples fs).1 fs).2.avg_heart_rate_bpm := by
  have hclean := preprocess_map_mul bandF notchF hband hnotch samples fs α
  rw [hclean]
  have hpeaks := pan_tompkins_scale qrsF hqrs (preprocess_ecg bandF notchF samples fs).1 fs α hα
  refine ⟨hpeaks, ?_⟩
  rw [pan_tompkins_metrics qrsF _ fs, pan_tompkins_metrics qrsF _ fs, hpeaks]
  exact detectionMetricsOf_avg_indep _ _ _ _

theorem C7_scale_invariance_witness :
    (0 : ℚ) < 2 ∧
      ((pan_tompkins_detector id (preprocess_ecg id id (egEcg.map (fun x => 2 * x)) 25).1 25).1 =
          (pan_tompkins_detector id (preprocess_ecg id id egEcg 25).1 25).1 ∧
        (pan_tompkins_detector id
            (preprocess_ecg id id (egEcg.map (fun x => 2 * x)) 25).1 25).2.avg_heart_rate_bpm =
          (pan_tompkins_detector id
            (preprocess_ecg id id egEcg 25).1 25).2.avg_heart_rate_bpm) :=
  ⟨by norm_num, C7_scale_invariance id id id (fun _ _ => rfl) (fun _ _ => rfl) (fun _ _ => rfl)
    egEcg 25 2 (by norm_num)⟩

end ECG
